import Mathlib

/-!
Verification of the ig_service OAuth/webhook/publish microservice.

The TypeScript sources are shallowly embedded here.  JavaScript strings are
modelled as lists of natural numbers (`Str`), one entry per byte/UTF-16 unit;
all strings appearing in the claims are ASCII, where the two views agree and
`Buffer.from(s, 'utf8')`/`buf.toString('utf8')` are the identity.  The
HMAC-SHA256 primitive (`crypto.createHmac`) is an external library call and is
taken as a function parameter `hmacB : Str → Str` producing the raw digest
bytes; `crypto.randomBytes` and `Date.now()` are likewise parameters.
-/

set_option maxRecDepth 40000

namespace IgService


/-- A JavaScript string, as the list of its character codes. -/
abbrev Str := List Nat

/-- Embed a Lean string literal as a `Str` (code points). -/
def strOf (s : String) : Str := s.data.map Char.toNat

/-- The state-token field delimiter, '.' (code 46). -/
def dotChar : Nat := 46

/-- JavaScript whitespace as relevant to `String.prototype.trim` on the
strings this service handles: space, tab, LF, CR. -/
def isJsSpace (c : Nat) : Bool := c = 32 || c = 9 || c = 10 || c = 13

/-! ## base64url (Node `Buffer` semantics, no padding)

`Buffer.prototype.toString('base64url')` encodes 3-byte groups into 4
characters, a trailing 2-byte group into 3 characters (2 unused low bits in
the final character) and a trailing 1-byte group into 2 characters (4 unused
low bits).  `Buffer.from(s, 'base64url')` maps characters to 6-bit values,
ignoring characters outside the alphabet (Node's documented leniency), and
drops trailing bits that do not fill a byte. -/

/-- The base64url alphabet: value (0..63) to character code. -/
def b64Char (v : Nat) : Nat :=
  if v < 26 then 65 + v
  else if v < 52 then 97 + (v - 26)
  else if v < 62 then 48 + (v - 52)
  else if v = 62 then 45
  else 95

/-- Character code to base64url value; `none` for characters outside the
alphabet (which Node's decoder skips). -/
def b64Val (c : Nat) : Option Nat :=
  if 65 ≤ c ∧ c ≤ 90 then some (c - 65)
  else if 97 ≤ c ∧ c ≤ 122 then some (26 + (c - 97))
  else if 48 ≤ c ∧ c ≤ 57 then some (52 + (c - 48))
  else if c = 45 then some 62
  else if c = 95 then some 63
  else none

/-- Bytes to 6-bit values, 3 bytes at a time, zero-padding the tail group. -/
def b64EncBytes : List Nat → List Nat
  | [] => []
  | [a] => [a / 4, (a % 4) * 16]
  | [a, b] => [a / 4, (a % 4) * 16 + b / 16, (b % 16) * 4]
  | a :: b :: c :: rest =>
      a / 4 :: ((a % 4) * 16 + b / 16) :: ((b % 16) * 4 + c / 64) :: (c % 64) ::
        b64EncBytes rest

/-- 6-bit values back to bytes, 4 values at a time; a trailing group of fewer
than four values yields only the bytes it fully determines (trailing bits are
dropped, as Node does). -/
def b64DecVals : List Nat → List Nat
  | [] => []
  | [_] => []
  | [a, b] => [a * 4 + b / 16]
  | [a, b, c] => [a * 4 + b / 16, (b % 16) * 16 + c / 4]
  | a :: b :: c :: d :: rest =>
      (a * 4 + b / 16) :: ((b % 16) * 16 + c / 4) :: ((c % 4) * 64 + d) ::
        b64DecVals rest

/-- Model of `Buffer.from(bytes).toString('base64url')`. -/
def b64UrlEncode (bs : List Nat) : Str := (b64EncBytes bs).map b64Char

/-- Model of `Buffer.from(s, 'base64url')`: non-alphabet characters are
ignored, trailing bits short of a byte are dropped. -/
def b64UrlDecode (s : Str) : List Nat := b64DecVals (s.filterMap b64Val)

/-! ## String splitting (`state.split('.')`) -/

/-- Model of JavaScript `s.split('.')`: the empty string yields `[""]`, and a
delimiter at either end yields an empty segment there. -/
def splitOnDot : Str → List Str
  | [] => [[]]
  | c :: rest =>
      match splitOnDot rest with
      | [] => [[c]]
      | p :: ps => if c = dotChar then [] :: p :: ps else (c :: p) :: ps

/-! ## Decimal serialization of timestamps

`Date.now()` produces an integer; interpolating it into a template literal
prints its decimal digits, and `Number(...)` parses them back.  `Number` is a
JavaScript builtin; it is modelled here on the inputs this service produces,
namely strings of decimal digits (with `Number('') = 0`, as in JavaScript).
Exotic numeric syntaxes (exponents, hex, signs, surrounding whitespace) are
treated as NaN; no theorem below depends on such inputs. -/

/-- Little-endian decimal digits, with explicit fuel (the fuel only needs to
dominate the number of digits). -/
def natDigitsAux : Nat → Nat → List Nat
  | 0, _ => []
  | _ + 1, 0 => []
  | fuel + 1, n => n % 10 :: natDigitsAux fuel (n / 10)

/-- Decimal digit string of a natural number, as produced by a template
literal. -/
def natToStr (n : Nat) : Str :=
  if n = 0 then [48] else (natDigitsAux n n).reverse.map (· + 48)

/-- Model of `Number(s)` followed by the `Number.isFinite` guard, for the
decimal-digit strings this service serializes: `some` is a finite parse,
`none` is NaN. -/
def parseNatM (s : Str) : Option Nat :=
  if s.all (fun c => 48 ≤ c && c ≤ 57) then
    some (s.foldl (fun a c => a * 10 + (c - 48)) 0)
  else none

/-! ## JSON (`JSON.parse` / `JSON.stringify`)

`JSON.parse` and `JSON.stringify` are JavaScript builtins.  They are modelled
on the value shapes this service produces and receives: flat objects whose
values are strings, bare strings and bare non-negative integers.  String
escape sequences, nested values, booleans, `null`, signs and exponents are
treated as parse failures; no payload in this development contains them.
What matters for the claims is that `JSON.parse` inverts `JSON.stringify` on
the payload objects built by `startAuth`, and that it REJECTS a bare
identifier such as `u1` (which is not valid JSON). -/

/-- Digit character code. -/
def isDigitCode (c : Nat) : Bool := 48 ≤ c && c ≤ 57

/-- A JSON value, restricted to the shapes used by this service. -/
inductive JVal
  | jstr (s : Str)
  | jnum (n : Nat)
  | jobj (fields : List (Str × Str))
deriving DecidableEq, Repr

/-- Skip JSON insignificant whitespace. -/
def skipSpaces (s : Str) : Str := s.dropWhile isJsSpace

/-- Scan the body of a string literal up to the closing quote.  An escape
(backslash) or a missing closing quote is a failure. -/
def scanString : Str → Option (Str × Str)
  | [] => none
  | c :: rest =>
      if c = 34 then some ([], rest)
      else if c = 92 then none
      else
        match scanString rest with
        | some (t, r) => some (c :: t, r)
        | none => none

/-- Parse the members of an object, positioned just after `\x7b` (or after a
comma); values must be string literals.  The fuel bounds the number of
members. -/
def parseFields : Nat → Str → Option (List (Str × Str) × Str)
  | 0, _ => none
  | fuel + 1, s =>
      match skipSpaces s with
      | 34 :: r =>
          match scanString r with
          | some (key, r1) =>
              match skipSpaces r1 with
              | 58 :: r3 =>
                  match skipSpaces r3 with
                  | 34 :: r5 =>
                      match scanString r5 with
                      | some (v, r6) =>
                          match skipSpaces r6 with
                          | 44 :: r8 =>
                              match parseFields fuel r8 with
                              | some (fs, rest) => some ((key, v) :: fs, rest)
                              | none => none
                          | 125 :: r8 => some ([(key, v)], r8)
                          | _ => none
                      | none => none
                  | _ => none
              | _ => none
          | none => none
      | _ => none

/-- Parse a top-level JSON text (restricted as described above). -/
def parseJson (s : Str) : Option JVal :=
  match skipSpaces s with
  | 34 :: r =>
      match scanString r with
      | some (t, rest) => if skipSpaces rest = [] then some (.jstr t) else none
      | none => none
  | 123 :: r =>
      match skipSpaces r with
      | 125 :: rest => if skipSpaces rest = [] then some (.jobj []) else none
      | r1 =>
          match parseFields (r1.length + 1) r1 with
          | some (fs, rest) => if skipSpaces rest = [] then some (.jobj fs) else none
          | none => none
  | s1 =>
      if s1 ≠ [] ∧ s1.all isDigitCode then
        some (.jnum (s1.foldl (fun a c => a * 10 + (c - 48)) 0))
      else none

/-- First field with the given name (the payloads here have no duplicate
keys). -/
def lookupField (fs : List (Str × Str)) (k : Str) : Option Str :=
  (fs.find? (fun p => decide (p.1 = k))).map (·.2)

/-- The three properties `handleCallback` reads off a parsed payload;
a missing property is `undefined` (`none`). -/
structure PayloadView where
  userId : Option Str
  callbackUrl : Option Str
  state : Option Str
deriving DecidableEq, Repr

/-- Model of `JSON.parse` as used on state payloads: `none` is a thrown
`SyntaxError`; on a non-object value all three properties are `undefined`. -/
def jsonParsePayload (s : Str) : Option PayloadView :=
  match parseJson s with
  | none => none
  | some (.jobj fs) =>
      some ⟨lookupField fs (strOf "userId"), lookupField fs (strOf "callbackUrl"),
        lookupField fs (strOf "state")⟩
  | some _ => some ⟨none, none, none⟩

/-- One `"key":"value"` member as `JSON.stringify` prints it. -/
def fieldStr (k v : Str) : Str := 34 :: k ++ 34 :: 58 :: 34 :: v ++ [34]

/-- Model of `JSON.stringify({ userId, callbackUrl, state })` (insertion
order, no spaces), for field values free of characters needing escapes. -/
def stringifyPayload (u c st : Str) : Str :=
  123 :: fieldStr (strOf "userId") u ++ 44 :: fieldStr (strOf "callbackUrl") c ++
    44 :: fieldStr (strOf "state") st ++ [125]

/-! ## stateHelper.ts — `createSecureState` / `verifySecureState`

The verifier's failure reasons, in the order the source checks them.  Each
constructor stands for the source's Italian message string, via
`reasonText`. -/

inductive Reason
  | requiredState
  | malformed
  | badTimestamp
  | badExpiry
  | expired
  | invalidSignature
  | invalidPayload
deriving DecidableEq, Repr

/-- The literal `reason` strings returned by `verifySecureState`. -/
def reasonText : Reason → Str
  | .requiredState => strOf "state è richiesto"
  | .malformed => strOf "formato dello state non valido"
  | .badTimestamp => strOf "timestamp non valido"
  | .badExpiry => strOf "expiry non valido"
  | .expired => strOf "state scaduto"
  | .invalidSignature => strOf "firma non valida"
  | .invalidPayload => strOf "payload non valido"

/-- The `data` record of a successful verification.  `userId` and
`callbackUrl` come from the parsed payload and may be `undefined`
(`none`); `state` falls back to the token's own `userState` segment when the
payload's `state` property is falsy. -/
structure StateData where
  userId : Option Str
  callbackUrl : Option Str
  state : Str
  nonce : Str
  timestamp : Nat
  expiry : Nat
deriving DecidableEq, Repr

inductive VerifyStateResult
  | invalid (reason : Reason)
  | valid (data : StateData)
deriving DecidableEq, Repr

structure CreateStateResult where
  state : Str
  nonce : Str
deriving DecidableEq, Repr

/-- The token TTL: 10 minutes in milliseconds. -/
def stateTtlMs : Nat := 10 * 60 * 1000

/-- `signPayload`: HMAC-SHA256 under the configured secret, base64url-encoded.
The digest itself is the abstract parameter `hmacB`. -/
def signPayload (hmacB : Str → Str) (payload : Str) : Str :=
  b64UrlEncode (hmacB payload)

/-- JavaScript `a || b` for an optional string property against a string
fallback: `undefined` and the empty string are falsy. -/
def jsOrStr (a : Option Str) (b : Str) : Str :=
  match a with
  | some s => if s = [] then b else s
  | none => b

/-- `createSecureState(payload, userState)`.  `nonceBytes` stands for
`crypto.randomBytes(16)` and `timestamp` for `Date.now()`; `none` models the
thrown error on a blank payload. -/
def createSecureState (hmacB : Str → Str) (nonceBytes : List Nat)
    (timestamp : Nat) (payload userState : Str) : Option CreateStateResult :=
  if payload.all isJsSpace then none
  else
    let nonce := b64UrlEncode nonceBytes
    let expiry := timestamp + stateTtlMs
    let payloadB64 := b64UrlEncode payload
    let data := payloadB64 ++ dotChar :: userState ++ dotChar :: nonce ++
      dotChar :: natToStr timestamp ++ dotChar :: natToStr expiry
    some ⟨data ++ dotChar :: signPayload hmacB data, nonce⟩

/-- `verifySecureState(state)`.  `now` stands for `Date.now()` at
verification time.  Note the source's check order: blank, shape, numeric
fields, EXPIRY, signature, payload.  The length pre-check plus
`crypto.timingSafeEqual` on the decoded signature buffers both collapse to
`reason: 'firma non valida'`; the surrounding `try` can only rethrow what
those calls throw, and with the length guard in place neither throws, so the
`errore verifica firma` branch is unreachable and has no constructor. -/
def verifySecureState (hmacB : Str → Str) (now : Nat) (state : Str) :
    VerifyStateResult :=
  if state.all isJsSpace then .invalid .requiredState
  else
    match splitOnDot state with
    | [payloadB64, userState, nonce, timestampStr, expiryStr, signature] =>
        match parseNatM timestampStr with
        | none => .invalid .badTimestamp
        | some timestamp =>
            match parseNatM expiryStr with
            | none => .invalid .badExpiry
            | some expiry =>
                if expiry < now then .invalid .expired
                else
                  let data := payloadB64 ++ dotChar :: userState ++
                    dotChar :: nonce ++ dotChar :: natToStr timestamp ++
                    dotChar :: natToStr expiry
                  let sigBuf := b64UrlDecode signature
                  let expectedBuf := b64UrlDecode (signPayload hmacB data)
                  if sigBuf.length ≠ expectedBuf.length then .invalid .invalidSignature
                  else if sigBuf ≠ expectedBuf then .invalid .invalidSignature
                  else
                    match jsonParsePayload (b64UrlDecode payloadB64) with
                    | none => .invalid .invalidPayload
                    | some pd =>
                        .valid ⟨pd.userId, pd.callbackUrl,
                          jsOrStr pd.state userState, nonce, timestamp, expiry⟩
    | _ => .invalid .malformed

/-- The call shape `verifySecureState(receivedState, storedNonce)` used at
both call sites in `instagramController.ts`.  The helper declares a single
parameter, so the second argument is ignored at runtime: no nonce comparison
ever happens. -/
def verifySecureStateWithNonce (hmacB : Str → Str) (now : Nat)
    (state expectedNonce : Str) : VerifyStateResult :=
  verifySecureState hmacB now state

/-- The delimiter-joined signing input of a token issued at `timestamp`. -/
def signingData (payload userState : Str) (nonceBytes : List Nat)
    (timestamp : Nat) : Str :=
  b64UrlEncode payload ++ dotChar :: userState ++
    dotChar :: b64UrlEncode nonceBytes ++ dotChar :: natToStr timestamp ++
    dotChar :: natToStr (timestamp + stateTtlMs)

/-- The signing input the verifier rebuilds from the six parsed segments. -/
def rebuiltData (p64 us non : Str) (ts exp : Nat) : Str :=
  p64 ++ dotChar :: us ++ dotChar :: non ++ dotChar :: natToStr ts ++
    dotChar :: natToStr exp

/-- A concrete stand-in for the HMAC-SHA256 digest, used to evaluate the
code at explicit inputs: the all-zero 32-byte digest.  The behaviors
exhibited with it do not depend on the digest's byte values. -/
def constDigest : Str → Str := fun _ => List.replicate 32 0

/-- The payload string `startAuth` builds for userId `u1`, callback
`https://x/cb` and sub-state `dash`. -/
def samplePayload : Str := stringifyPayload (strOf "u1") (strOf "https://x/cb") (strOf "dash")

/-- A concrete 16-byte nonce, standing for one draw of `crypto.randomBytes`. -/
def sampleNonce : List Nat := List.replicate 16 7

/-- The token `createSecureState` issues at time `ts` for `samplePayload`
under `constDigest` and `sampleNonce`. -/
def sampleToken (ts : Nat) : Str :=
  signingData samplePayload (strOf "dash") sampleNonce ts ++
    dotChar :: signPayload constDigest (signingData samplePayload (strOf "dash") sampleNonce ts)

/-! ## instagramRoutes.ts — webhook signature verification and POST handler -/

/-- Hex digit character for a value below 16 (lowercase, as Node's
`digest('hex')`). -/
def hexDigit (v : Nat) : Nat := if v < 10 then 48 + v else 87 + v

/-- Fixed-width lowercase hex rendering, most significant digit first. -/
def hexOfNat (width v : Nat) : Str :=
  (List.range width).map (fun i => hexDigit (v / 16 ^ (width - 1 - i) % 16))

/-- A concrete stand-in for `crypto.createHmac('sha256', secret)...digest('hex')`
used to evaluate the verifier at explicit inputs: a 64-hex-character digest
of a toy rolling hash.  The behaviors exhibited do not depend on the
particular digest function, only on it being a deterministic 64-character
hex digest. -/
def toyHexDigest (s : Str) : Str :=
  hexOfNat 64 (s.foldl (fun a c => (a * 131 + c) % 4294967296) 7)

/-- `verifyWebhookSignature(body, signature)` from `instagramRoutes.ts`.
`hmacHex` abstracts the keyed hex digest, and `payload` is the string the
function digests — the route computes it as `JSON.stringify(req.body)`.  A
missing header is `false`; `crypto.timingSafeEqual` over buffers of unequal
length throws, which the surrounding `catch` maps to `false`; equal-length
buffers compare by content. -/
def verifyWebhookSignature (hmacHex : Str → Str) (payload : Str)
    (signature : Option Str) : Bool :=
  match signature with
  | none => false
  | some sig =>
      let expected := strOf "sha256=" ++ hmacHex payload
      if sig.length ≠ expected.length then false
      else decide (sig = expected)

/-- The composition the webhook route actually performs: the body string
handed to the verifier is `JSON.stringify(req.body)` — a re-serialization of
the parsed body — not the raw request bytes that `index.ts` saved on
`req.rawBody` for exactly this purpose. -/
def webhookSignatureCheck (hmacHex : Str → Str) (reserialize : Str → Str)
    (rawBody : Str) (signature : Option Str) : Bool :=
  verifyWebhookSignature hmacHex (reserialize rawBody) signature

/-- One `"key":"value"` member list as `JSON.stringify` prints it. -/
def fieldsStr : List (Str × Str) → Str
  | [] => []
  | [(k, v)] => fieldStr k v
  | (k, v) :: rest => fieldStr k v ++ 44 :: fieldsStr rest

/-- `JSON.stringify` of a parsed flat object. -/
def stringifyObj (fs : List (Str × Str)) : Str := 123 :: fieldsStr fs ++ [125]

/-- `JSON.stringify(JSON.parse(s))` — what the body-parsing middleware plus
the route's re-serialization do to the raw body text (for the flat
string-valued shapes of this development): insignificant whitespace is
dropped. -/
def jsonReserialize (s : Str) : Str :=
  match parseJson s with
  | some (.jobj fs) => stringifyObj fs
  | some (.jstr t) => 34 :: t ++ [34]
  | some (.jnum n) => natToStr n
  | none => s

/-- The raw webhook body used as the C5 failing input: a correctly signed
JSON text containing one space.  Written with hex escapes: it is the text
`\x7b"userId": "u1"\x7d`. -/
def rawBodyWithSpace : Str := strOf "\x7b\x22userId\x22: \x22u1\x22\x7d"

/-- The externally visible actions of the POST /webhooks handler. -/
inductive WhAction
  | respond200
  | verifySig
  | processMessaging (accountId msg : Str)
  | processChange (accountId chg : Str)
deriving DecidableEq, Repr

/-- One entry of a webhook batch: `id`, its `messaging` events and its
`changes` events (payloads opaque). -/
structure WhEntry where
  id : Str
  messaging : List Str
  changes : List Str
deriving DecidableEq, Repr

/-- The POST /webhooks handler as the sequence of externally visible actions
it performs, in source order: `res.sendStatus(200)` is the first statement;
signature verification comes after; on verification failure the handler
returns (the caller was already acknowledged); otherwise each entry's
messaging events then change events are handed to the processors, which
forward them downstream. -/
def webhookPostTrace (hmacHex : Str → Str) (bodySerialized : Str)
    (signature : Option Str) (entries : List WhEntry) : List WhAction :=
  WhAction.respond200 :: WhAction.verifySig ::
    (if verifyWebhookSignature hmacHex bodySerialized signature then
      if entries.isEmpty then []
      else entries.flatMap (fun e =>
        e.messaging.map (WhAction.processMessaging e.id) ++
          e.changes.map (WhAction.processChange e.id))
    else [])

/-! ## instagramService.ts — container polling and carousel publishing -/

/-- Outcome of `waitForContainerReady`, carrying the number of status calls
made: `ready` models a normal return, the other two model the thrown
errors. -/
inductive PollOutcome
  | ready (calls : Nat)
  | containerFailed (status : Str) (calls : Nat)
  | timeout (calls : Nat)
deriving DecidableEq, Repr

/-- Iteration `i` of the `for` loop in `waitForContainerReady`; `statuses i`
is the platform's response to the `i`-th `checkContainerStatus` call.
`FINISHED` returns; `ERROR` and `EXPIRED` throw; anything else sleeps and
continues; exhausting the loop throws the timeout error. -/
def pollLoop (statuses : Nat → Str) (maxAttempts i : Nat) : PollOutcome :=
  if _h : i < maxAttempts then
    if statuses i = strOf "FINISHED" then .ready (i + 1)
    else if statuses i = strOf "ERROR" ∨ statuses i = strOf "EXPIRED" then
      .containerFailed (statuses i) (i + 1)
    else pollLoop statuses maxAttempts (i + 1)
  else .timeout i
termination_by maxAttempts - i

/-- `waitForContainerReady(containerId, accessToken, maxAttempts)`; the call
sites that omit `maxAttempts` get the default 10. -/
def waitForContainerReady (statuses : Nat → Str) (maxAttempts : Nat) : PollOutcome :=
  pollLoop statuses maxAttempts 0

/-- One item of a carousel request body. -/
structure CarouselItem where
  image_url : Option Str
  video_url : Option Str
deriving DecidableEq, Repr

/-- A network call against the platform API. -/
inductive NetCall
  | createContainer (isCarouselItem : Bool) (mediaType : Option Str) (children : List Str)
  | checkStatus (containerId : Str)
  | publishMedia (creationId : Str)
deriving DecidableEq, Repr

/-- The sequential child-container creation loop of `publishCarousel`.
`tr k` is the platform's response (a container id) to the `k`-th network
call; returns the child ids, the next call index and the calls made. -/
def createChildContainers (tr : Nat → Str) :
    List CarouselItem → Nat → (List Str × Nat × List NetCall)
  | [], k => ([], k, [])
  | _ :: rest, k =>
      let cid := tr k
      let (ids, k2, calls) := createChildContainers tr rest (k + 1)
      (cid :: ids, k2, NetCall.createContainer true none [] :: calls)

/-- The polling loop with its status network calls recorded; `tr k` is the
status string returned by the `k`-th network call. -/
def pollStatusCalls (tr : Nat → Str) (cid : Str) (m : Nat) :
    Nat → Nat → (PollOutcome × Nat × List NetCall)
  | i, k =>
      if _h : i < m then
        if tr k = strOf "FINISHED" then (.ready (i + 1), k + 1, [.checkStatus cid])
        else if tr k = strOf "ERROR" ∨ tr k = strOf "EXPIRED" then
          (.containerFailed (tr k) (i + 1), k + 1, [.checkStatus cid])
        else
          let (o, k2, cs) := pollStatusCalls tr cid m (i + 1) (k + 1)
          (o, k2, .checkStatus cid :: cs)
      else (.timeout i, k, [])
termination_by i _ => m - i

/-- `instagramService.publishCarousel`: validates the 2–10 item bound (before
any network call), creates one child container per item sequentially, then
the parent CAROUSEL container, polls it (default 10 attempts) and publishes.
Returns the thrown message or the published media id, plus the network calls
made. -/
def svcPublishCarousel (tr : Nat → Str) (items : List CarouselItem) :
    Except Str Str × List NetCall :=
  if items.length < 2 ∨ items.length > 10 then
    (.error (strOf "Carousel deve contenere tra 2 e 10 items"), [])
  else
    let (childIds, k1, calls1) := createChildContainers tr items 0
    let carouselId := tr k1
    let (outcome, k2, calls3) := pollStatusCalls tr carouselId 10 0 (k1 + 1)
    let calls := calls1 ++ NetCall.createContainer false (some (strOf "CAROUSEL")) childIds :: calls3
    match outcome with
    | .ready _ => (.ok (tr k2), calls ++ [.publishMedia carouselId])
    | .containerFailed st _ => (.error (strOf "Container in stato " ++ st), calls)
    | .timeout _ => (.error (strOf "Timeout: container non pronto dopo 20 secondi"), calls)

/-- Responses of the carousel controller. -/
inductive CarouselResp
  | badRequestMissing
  | badRequestItems
  | ok (mediaId : Str)
  | serverError (msg : Str)
deriving DecidableEq, Repr

/-- The `publishCarousel` controller: missing parameters give a 400; a
non-2..10 item list gives the 400 `items non valido` response BEFORE the
service (and hence any network transport) is invoked; otherwise the service
result is mapped to 200 or 500. -/
def publishCarouselCtrl (tr : Nat → Str) (accountId accessToken : Option Str)
    (items : Option (List CarouselItem)) (caption : Option Str) :
    CarouselResp × List NetCall :=
  match accountId, accessToken, items with
  | some _, some _, some its =>
      if its.length < 2 ∨ its.length > 10 then (.badRequestItems, [])
      else
        match svcPublishCarousel tr its with
        | (.ok mid, calls) => (.ok mid, calls)
        | (.error e, calls) => (.serverError e, calls)
  | _, _, _ => (.badRequestMissing, [])

/-! ## instagramController.ts — OAuth start and callback flow -/

/-- The data `exchangeCodeForAuth` resolves with. -/
structure AuthData where
  accessToken : Str
  userId : Str
  username : Str
  accountType : Option Str
  expiresIn : Nat
  expiresAt : Str
deriving DecidableEq, Repr

/-- Every path of `handleCallback` ends in a redirect: a base URL with
query parameters appended in order. -/
inductive CbOutcome
  | redirect (base : Str) (params : List (Str × Str))
deriving DecidableEq, Repr

/-- The redirect the outer `catch` of `handleCallback` produces. -/
def catchRedirect (defaultCb msg : Str) : CbOutcome :=
  .redirect defaultCb [(strOf "success", strOf "false"), (strOf "error", msg)]

/-- `searchParams.append(name, v)` coerces `undefined` to the string
`undefined`. -/
def optOrUndefined (o : Option Str) : Str := o.getD (strOf "undefined")

/-- `startAuth`: the payload is `JSON.stringify({ userId, callbackUrl,
state })` and the secure state is created from it with the sub-state as the
`userState` argument. -/
def startAuthState (hmacB : Str → Str) (nonceBytes : List Nat) (now : Nat)
    (userId callbackUrl state0 : Str) : Option CreateStateResult :=
  createSecureState hmacB nonceBytes now (stringifyPayload userId callbackUrl state0) state0

/-- `handleCallback` from `instagramController.ts`.  Thrown errors resolve
through the outer `catch` to an error redirect at the configured default
callback URL.  `exchange` stands for the awaited `exchangeCodeForAuth`.
The engine-specific `SyntaxError`/`TypeError` message texts are abbreviated
to those names; `new URL` on a present (string) callback URL is assumed to
parse, `new URL(undefined)` throws.  Note the source parses
`verification.data.userId` — the payload's `userId` FIELD — as JSON a
second time. -/
def handleCallback (hmacB : Str → Str) (now : Nat) (defaultCb : Str)
    (code state errorQ errorDescription storedNonce : Option Str)
    (exchange : Except Str AuthData) : CbOutcome :=
  match errorQ with
  | some e =>
      let cb : Option Str :=
        match storedNonce, state with
        | some n, some st =>
            match verifySecureStateWithNonce hmacB now st n with
            | .valid d =>
                match d.userId with
                | some uid =>
                    match jsonParsePayload uid with
                    | some pv => pv.callbackUrl
                    | none => some defaultCb
                | none => some defaultCb
            | .invalid _ => some defaultCb
        | _, _ => some defaultCb
      match cb with
      | some cbu =>
          .redirect cbu [(strOf "error", e),
            (strOf "error_description", errorDescription.getD (strOf "OAuth error"))]
      | none => catchRedirect defaultCb (strOf "TypeError")
  | none =>
      match code with
      | none => catchRedirect defaultCb (strOf "Authorization code missing")
      | some _ =>
      match state with
      | none => catchRedirect defaultCb (strOf "State parameter missing")
      | some st =>
      match storedNonce with
      | none => catchRedirect defaultCb (strOf "Nonce missing - possible CSRF attack")
      | some n =>
      match verifySecureStateWithNonce hmacB now st n with
      | .invalid r =>
          catchRedirect defaultCb (strOf "CSRF verification failed: " ++ reasonText r)
      | .valid d =>
      match d.userId with
      | none => catchRedirect defaultCb (strOf "SyntaxError")
      | some uid =>
      match jsonParsePayload uid with
      | none => catchRedirect defaultCb (strOf "SyntaxError")
      | some pv =>
      match exchange with
      | .error msg => catchRedirect defaultCb msg
      | .ok authData =>
      match pv.callbackUrl with
      | none => catchRedirect defaultCb (strOf "TypeError")
      | some cbu =>
          .redirect cbu
            ([(strOf "success", strOf "true"),
              (strOf "userId", optOrUndefined pv.userId),
              (strOf "state", optOrUndefined pv.state),
              (strOf "instagramUserId", authData.userId),
              (strOf "instagramUsername", authData.username),
              (strOf "accessToken", authData.accessToken),
              (strOf "expiresIn", natToStr authData.expiresIn),
              (strOf "expiresAt", authData.expiresAt)] ++
              (match authData.accountType with
               | some acct => [(strOf "accountType", acct)]
               | none => []))

/-- The token `startAuth` issues in the C9 scenario (userId `u1`, callback
`https://x/cb`, default sub-state) at time 0 under the stand-in digest. -/
def c9Token : Str :=
  signingData (stringifyPayload (strOf "u1") (strOf "https://x/cb") (strOf "default"))
      (strOf "default") sampleNonce 0 ++
    dotChar :: signPayload constDigest
      (signingData (stringifyPayload (strOf "u1") (strOf "https://x/cb") (strOf "default"))
        (strOf "default") sampleNonce 0)

/-- The mocked token-exchange result of the C9 scenario. -/
def c9AuthData : AuthData :=
  ⟨strOf "tok", strOf "123", strOf "bob", none, 100, strOf "2026-01-01"⟩

/-! ## Theorems -/

theorem b64Val_b64Char : ∀ v < 64, b64Val (b64Char v) = some v := by decide

theorem b64Char_ne_dot (v : Nat) : b64Char v ≠ dotChar := by
  by_cases h : v < 64
  · have bounded : ∀ w < 64, b64Char w ≠ dotChar := by decide
    exact bounded v h
  · unfold b64Char dotChar
    rw [if_neg (by omega), if_neg (by omega), if_neg (by omega), if_neg (by omega)]
    omega

theorem b64Val_dot_eq_none : b64Val dotChar = none := by decide

/-- Every value emitted by the encoder is a valid sextet. -/
theorem b64EncBytes_lt {bs : List Nat} (h : ∀ b ∈ bs, b < 256) :
    ∀ v ∈ b64EncBytes bs, v < 64 := by
  induction bs using b64EncBytes.induct with
  | case1 => simp [b64EncBytes]
  | case2 a =>
      have := h a (by simp)
      simp only [b64EncBytes, List.mem_cons, List.not_mem_nil, or_false]
      rintro v (rfl | rfl) <;> omega
  | case3 a b =>
      have ha := h a (by simp)
      have hb := h b (by simp)
      simp only [b64EncBytes, List.mem_cons, List.not_mem_nil, or_false]
      rintro v (rfl | rfl | rfl) <;> omega
  | case4 a b c rest ih =>
      have ha := h a (by simp)
      have hb := h b (by simp)
      have hc := h c (by simp)
      simp only [b64EncBytes, List.mem_cons]
      rintro v (rfl | rfl | rfl | rfl | hv)
      · omega
      · omega
      · omega
      · omega
      · exact ih (fun x hx => h x (by simp [hx])) v hv

/-- Decoding inverts encoding at the level of sextet values. -/
theorem b64DecVals_b64EncBytes {bs : List Nat} (h : ∀ b ∈ bs, b < 256) :
    b64DecVals (b64EncBytes bs) = bs := by
  induction bs using b64EncBytes.induct with
  | case1 => simp [b64EncBytes, b64DecVals]
  | case2 a =>
      simp only [b64EncBytes, b64DecVals, List.cons.injEq, and_true]
      omega
  | case3 a b =>
      have hb := h b (by simp)
      simp only [b64EncBytes, b64DecVals, List.cons.injEq, and_true]
      omega
  | case4 a b c rest ih =>
      have hb := h b (by simp)
      have hc := h c (by simp)
      simp only [b64EncBytes, b64DecVals, List.cons.injEq]
      refine ⟨by omega, by omega, by omega, ih (fun x hx => h x (by simp [hx]))⟩

theorem filterMap_b64Val_map_b64Char {vs : List Nat} (h : ∀ v ∈ vs, v < 64) :
    (vs.map b64Char).filterMap b64Val = vs := by
  induction vs with
  | nil => rfl
  | cons v vs ih =>
      simp only [List.map_cons, List.filterMap_cons,
        b64Val_b64Char v (h v (by simp))]
      rw [ih (fun x hx => h x (by simp [hx]))]

/-- Round trip: Node base64url decoding inverts encoding on byte lists. -/
theorem b64UrlDecode_b64UrlEncode {bs : List Nat} (h : ∀ b ∈ bs, b < 256) :
    b64UrlDecode (b64UrlEncode bs) = bs := by
  unfold b64UrlDecode b64UrlEncode
  rw [filterMap_b64Val_map_b64Char (b64EncBytes_lt h), b64DecVals_b64EncBytes h]

theorem b64UrlEncode_no_dot {bs : List Nat} : ∀ c ∈ b64UrlEncode bs, c ≠ dotChar := by
  unfold b64UrlEncode
  intro c hc
  obtain ⟨v, _, rfl⟩ := List.mem_map.mp hc
  exact b64Char_ne_dot v

theorem isJsSpace_b64Char (v : Nat) : isJsSpace (b64Char v) = false := by
  by_cases h : v < 64
  · have bounded : ∀ w < 64, isJsSpace (b64Char w) = false := by decide
    exact bounded v h
  · unfold b64Char
    rw [if_neg (by omega), if_neg (by omega), if_neg (by omega), if_neg (by omega)]
    decide

theorem b64UrlEncode_not_space {bs : List Nat} :
    ∀ c ∈ b64UrlEncode bs, isJsSpace c = false := by
  unfold b64UrlEncode
  intro c hc
  obtain ⟨v, _, rfl⟩ := List.mem_map.mp hc
  exact isJsSpace_b64Char v

theorem splitOnDot_ne_nil (s : Str) : splitOnDot s ≠ [] := by
  cases s with
  | nil => simp [splitOnDot]
  | cons c rest =>
      simp only [splitOnDot]
      cases splitOnDot rest with
      | nil => simp
      | cons p ps =>
          by_cases h : c = dotChar <;> simp [h]

/-- A delimiter-free string splits into the single segment that it is. -/
theorem splitOnDot_no_dot {s : Str} (h : ∀ c ∈ s, c ≠ dotChar) :
    splitOnDot s = [s] := by
  induction s with
  | nil => rfl
  | cons c rest ih =>
      have hrest := ih (fun x hx => h x (by simp [hx]))
      simp only [splitOnDot, hrest]
      rw [if_neg (h c (by simp))]

/-- Splitting peels off one delimiter-free segment before a delimiter. -/
theorem splitOnDot_append {a b : Str} (h : ∀ c ∈ a, c ≠ dotChar) :
    splitOnDot (a ++ dotChar :: b) = a :: splitOnDot b := by
  induction a with
  | nil =>
      simp only [List.nil_append, splitOnDot]
      cases hb : splitOnDot b with
      | nil => exact absurd hb (splitOnDot_ne_nil b)
      | cons p ps => simp
  | cons c rest ih =>
      have hrest := ih (fun x hx => h x (by simp [hx]))
      simp only [List.cons_append, splitOnDot, List.append_eq, hrest]
      rw [if_neg (h c (by simp))]

/-- A string that contains a character that is not whitespace is not blank. -/
theorem not_all_space_of_mem {s : Str} {c : Nat} (hc : c ∈ s)
    (h : isJsSpace c = false) : s.all isJsSpace = false := by
  rw [List.all_eq_false]
  exact ⟨c, hc, by simp [h]⟩

theorem isJsSpace_dot : isJsSpace dotChar = false := by decide

theorem natDigitsAux_eq_digits : ∀ fuel n, n ≤ fuel →
    natDigitsAux fuel n = Nat.digits 10 n := by
  intro fuel
  induction fuel with
  | zero =>
      intro n hn
      interval_cases n
      simp [natDigitsAux]
  | succ fuel ih =>
      intro n hn
      cases n with
      | zero => simp [natDigitsAux]
      | succ m =>
          rw [show natDigitsAux (fuel + 1) (m + 1) =
              (m + 1) % 10 :: natDigitsAux fuel ((m + 1) / 10) from rfl,
            Nat.digits_def' (by norm_num : 1 < 10) (Nat.succ_pos m),
            ih ((m + 1) / 10) (by omega)]

theorem natToStr_eq_digits (n : Nat) :
    natToStr n = if n = 0 then [48] else (Nat.digits 10 n).reverse.map (· + 48) := by
  unfold natToStr
  by_cases h : n = 0
  · simp [h]
  · rw [if_neg h, if_neg h, natDigitsAux_eq_digits n n le_rfl]

theorem foldl_digits (ds : List Nat) :
    ((ds.reverse.map (· + 48)).foldl (fun a c => a * 10 + (c - 48)) 0) =
      Nat.ofDigits 10 ds := by
  induction ds with
  | nil => simp [Nat.ofDigits]
  | cons d ds ih =>
      simp only [List.reverse_cons, List.map_append, List.map_cons,
        List.map_nil, List.foldl_append, List.foldl_cons, List.foldl_nil, ih,
        Nat.ofDigits_cons]
      omega

theorem parseNatM_natToStr (n : Nat) : parseNatM (natToStr n) = some n := by
  rw [natToStr_eq_digits]
  unfold parseNatM
  by_cases h : n = 0
  · subst h
    decide
  · rw [if_neg h]
    have hdig : ∀ d ∈ Nat.digits 10 n, d < 10 :=
      fun d hd => Nat.digits_lt_base (by norm_num) hd
    have hall : ((Nat.digits 10 n).reverse.map (· + 48)).all
        (fun c => 48 ≤ c && c ≤ 57) = true := by
      rw [List.all_eq_true]
      intro c hc
      obtain ⟨d, hd, rfl⟩ := List.mem_map.mp hc
      have := hdig d (List.mem_reverse.mp hd)
      simp only [Bool.and_eq_true, decide_eq_true_eq]
      omega
    rw [if_pos hall, foldl_digits, Nat.ofDigits_digits]

theorem natToStr_no_dot (n : Nat) : ∀ c ∈ natToStr n, c ≠ dotChar := by
  rw [natToStr_eq_digits]
  by_cases h : n = 0
  · subst h
    decide
  · rw [if_neg h]
    intro c hc
    obtain ⟨d, hd, rfl⟩ := List.mem_map.mp hc
    have := Nat.digits_lt_base (by norm_num) (List.mem_reverse.mp hd)
    unfold dotChar
    omega

theorem skipSpaces_cons_of_not_space {c : Nat} {r : Str} (h : isJsSpace c = false) :
    skipSpaces (c :: r) = c :: r := by
  simp [skipSpaces, List.dropWhile_cons, h]

theorem scanString_append {t r : Str} (h : ∀ c ∈ t, c ≠ 34 ∧ c ≠ 92) :
    scanString (t ++ 34 :: r) = some (t, r) := by
  induction t with
  | nil => simp [scanString]
  | cons c rest ih =>
      have hc := h c (by simp)
      simp only [List.cons_append, scanString, if_neg hc.1, if_neg hc.2,
        List.append_eq, ih (fun x hx => h x (by simp [hx]))]

theorem parseFields_step_comma {fuel : Nat} {k v tail : Str}
    (hk : ∀ c ∈ k, c ≠ 34 ∧ c ≠ 92) (hv : ∀ c ∈ v, c ≠ 34 ∧ c ≠ 92) :
    parseFields (fuel + 1) (34 :: (k ++ 34 :: 58 :: 34 :: (v ++ 34 :: 44 :: tail))) =
      (parseFields fuel tail).map (fun p => ((k, v) :: p.1, p.2)) := by
  simp only [parseFields, skipSpaces_cons_of_not_space (by decide : isJsSpace 34 = false),
    skipSpaces_cons_of_not_space (by decide : isJsSpace 58 = false),
    skipSpaces_cons_of_not_space (by decide : isJsSpace 44 = false),
    scanString_append hk, scanString_append hv]
  cases parseFields fuel tail <;> rfl

theorem parseFields_step_close {fuel : Nat} {k v rest : Str}
    (hk : ∀ c ∈ k, c ≠ 34 ∧ c ≠ 92) (hv : ∀ c ∈ v, c ≠ 34 ∧ c ≠ 92) :
    parseFields (fuel + 1) (34 :: (k ++ 34 :: 58 :: 34 :: (v ++ 34 :: 125 :: rest))) =
      some ([(k, v)], rest) := by
  simp only [parseFields, skipSpaces_cons_of_not_space (by decide : isJsSpace 34 = false),
    skipSpaces_cons_of_not_space (by decide : isJsSpace 58 = false),
    skipSpaces_cons_of_not_space (by decide : isJsSpace 125 = false),
    scanString_append hk, scanString_append hv]

/-- `JSON.parse` inverts `JSON.stringify` on the payload objects that
`startAuth` builds, provided the field values need no escaping. -/
theorem parseJson_stringifyPayload {u c st : Str}
    (hu : ∀ x ∈ u, x ≠ 34 ∧ x ≠ 92) (hc : ∀ x ∈ c, x ≠ 34 ∧ x ≠ 92)
    (hst : ∀ x ∈ st, x ≠ 34 ∧ x ≠ 92) :
    parseJson (stringifyPayload u c st) =
      some (.jobj [(strOf "userId", u), (strOf "callbackUrl", c),
        (strOf "state", st)]) := by
  have hkeyU : ∀ x ∈ strOf "userId", x ≠ 34 ∧ x ≠ 92 := by decide
  have hkeyC : ∀ x ∈ strOf "callbackUrl", x ≠ 34 ∧ x ≠ 92 := by decide
  have hkeyS : ∀ x ∈ strOf "state", x ≠ 34 ∧ x ≠ 92 := by decide
  have hbody : stringifyPayload u c st =
      123 :: (34 :: (strOf "userId" ++ 34 :: 58 :: 34 :: (u ++ 34 :: 44 ::
        (34 :: (strOf "callbackUrl" ++ 34 :: 58 :: 34 :: (c ++ 34 :: 44 ::
          (34 :: (strOf "state" ++ 34 :: 58 :: 34 :: (st ++ 34 :: 125 :: []))))))))) := by
    simp [stringifyPayload, fieldStr]
  rw [hbody]
  have hKU : (strOf "userId").length = 6 := by decide
  have hKC : (strOf "callbackUrl").length = 11 := by decide
  have hKS : (strOf "state").length = 5 := by decide
  have hlen : (34 :: (strOf "userId" ++ 34 :: 58 :: 34 :: (u ++ 34 :: 44 ::
      (34 :: (strOf "callbackUrl" ++ 34 :: 58 :: 34 :: (c ++ 34 :: 44 ::
        (34 :: (strOf "state" ++ 34 :: 58 :: 34 ::
          (st ++ 34 :: 125 :: []))))))))).length + 1 =
      (u.length + c.length + st.length + 38) + 3 := by
    simp only [List.length_cons, List.length_append, hKU, hKC, hKS, List.length_nil]
    omega
  have hnil : skipSpaces ([] : Str) = [] := rfl
  simp only [parseJson, skipSpaces_cons_of_not_space (by decide : isJsSpace 123 = false),
    skipSpaces_cons_of_not_space (by decide : isJsSpace 34 = false), hlen,
    parseFields_step_comma hkeyU hu, parseFields_step_comma hkeyC hc,
    parseFields_step_close hkeyS hst, hnil]
  rfl

theorem jsonParsePayload_stringify {u c st : Str}
    (hu : ∀ x ∈ u, x ≠ 34 ∧ x ≠ 92) (hc : ∀ x ∈ c, x ≠ 34 ∧ x ≠ 92)
    (hst : ∀ x ∈ st, x ≠ 34 ∧ x ≠ 92) :
    jsonParsePayload (stringifyPayload u c st) = some ⟨some u, some c, some st⟩ := by
  unfold jsonParsePayload
  rw [parseJson_stringifyPayload hu hc hst]
  simp [lookupField, List.find?,
    (by decide : decide (strOf "userId" = strOf "userId") = true),
    (by decide : decide (strOf "userId" = strOf "callbackUrl") = false),
    (by decide : decide (strOf "callbackUrl" = strOf "callbackUrl") = true),
    (by decide : decide (strOf "userId" = strOf "state") = false),
    (by decide : decide (strOf "callbackUrl" = strOf "state") = false),
    (by decide : decide (strOf "state" = strOf "state") = true)]

theorem createSecureState_eq {hmacB : Str → Str} {nonceBytes : List Nat}
    {timestamp : Nat} {payload userState : Str}
    (h : payload.all isJsSpace = false) :
    createSecureState hmacB nonceBytes timestamp payload userState =
      some ⟨signingData payload userState nonceBytes timestamp ++
          dotChar :: signPayload hmacB (signingData payload userState nonceBytes timestamp),
        b64UrlEncode nonceBytes⟩ := by
  unfold createSecureState signingData
  rw [if_neg (by simp [h])]

/-- Splitting a six-segment join whose segments are delimiter-free recovers
the six segments. -/
theorem splitOnDot_six {p1 p2 p3 p4 p5 p6 : Str}
    (h1 : ∀ c ∈ p1, c ≠ dotChar) (h2 : ∀ c ∈ p2, c ≠ dotChar)
    (h3 : ∀ c ∈ p3, c ≠ dotChar) (h4 : ∀ c ∈ p4, c ≠ dotChar)
    (h5 : ∀ c ∈ p5, c ≠ dotChar) (h6 : ∀ c ∈ p6, c ≠ dotChar) :
    splitOnDot (p1 ++ dotChar :: p2 ++ dotChar :: p3 ++ dotChar :: p4 ++
        dotChar :: p5 ++ dotChar :: p6) =
      [p1, p2, p3, p4, p5, p6] := by
  simp only [List.append_assoc, List.cons_append]
  rw [splitOnDot_append h1, splitOnDot_append h2, splitOnDot_append h3,
    splitOnDot_append h4, splitOnDot_append h5, splitOnDot_no_dot h6]

/-- Splitting a token whose `userState` and signature segments are
delimiter-free recovers the six fields. -/
theorem splitOnDot_token {payload userState : Str} {nonceBytes : List Nat}
    {timestamp : Nat} {sig : Str}
    (hus : ∀ c ∈ userState, c ≠ dotChar) (hsig : ∀ c ∈ sig, c ≠ dotChar) :
    splitOnDot (signingData payload userState nonceBytes timestamp ++ dotChar :: sig) =
      [b64UrlEncode payload, userState, b64UrlEncode nonceBytes,
        natToStr timestamp, natToStr (timestamp + stateTtlMs), sig] := by
  unfold signingData
  exact splitOnDot_six b64UrlEncode_no_dot hus b64UrlEncode_no_dot
    (natToStr_no_dot timestamp) (natToStr_no_dot (timestamp + stateTtlMs)) hsig

/-- A blank string contains no delimiter, hence splits into itself. -/
theorem all_space_split {s : Str} (h : s.all isJsSpace = true) : splitOnDot s = [s] :=
  splitOnDot_no_dot (fun c hc hcd => by
    have hsp := List.all_eq_true.mp h c hc
    subst hcd
    exact absurd hsp (by decide))

theorem not_blank_of_six {state p1 p2 p3 p4 p5 p6 : Str}
    (hsplit : splitOnDot state = [p1, p2, p3, p4, p5, p6]) :
    state.all isJsSpace = false := by
  cases hb : state.all isJsSpace with
  | false => rfl
  | true =>
      rw [all_space_split hb] at hsplit
      simp at hsplit

/-- Path lemma: a six-segment token whose expiry has passed is rejected as
expired, whatever its signature segment holds — the source checks
`Date.now() > expiry` before recomputing any signature. -/
theorem verifySecureState_expired {hmacB : Str → Str} {now : Nat}
    {state p64 us non tsS eS sig : Str} {ts exp : Nat}
    (hsplit : splitOnDot state = [p64, us, non, tsS, eS, sig])
    (hts : parseNatM tsS = some ts) (hexp : parseNatM eS = some exp)
    (hlt : exp < now) :
    verifySecureState hmacB now state = .invalid .expired := by
  unfold verifySecureState
  rw [not_blank_of_six hsplit]
  simp only [Bool.false_eq_true, if_false, hsplit, hts, hexp, if_pos hlt]

/-- Path lemma: an unexpired six-segment token whose signature segment does
not decode to the recomputed digest is rejected with the invalid-signature
reason (whether the decoded lengths differ or the bytes differ). -/
theorem verifySecureState_badsig {hmacB : Str → Str} {now : Nat}
    {state p64 us non tsS eS sig : Str} {ts exp : Nat}
    (hsplit : splitOnDot state = [p64, us, non, tsS, eS, sig])
    (hts : parseNatM tsS = some ts) (hexp : parseNatM eS = some exp)
    (hle : ¬ exp < now)
    (hne : b64UrlDecode sig ≠
      b64UrlDecode (signPayload hmacB (rebuiltData p64 us non ts exp))) :
    verifySecureState hmacB now state = .invalid .invalidSignature := by
  unfold verifySecureState
  rw [not_blank_of_six hsplit]
  simp only [Bool.false_eq_true, if_false, hsplit, hts, hexp, if_neg hle]
  unfold rebuiltData at hne
  by_cases hlen : (b64UrlDecode sig).length =
      (b64UrlDecode (signPayload hmacB (p64 ++ dotChar :: us ++ dotChar :: non ++
        dotChar :: natToStr ts ++ dotChar :: natToStr exp))).length
  · rw [if_neg (by omega), if_pos hne]
  · rw [if_pos hlen]

/-- Path lemma: an unexpired six-segment token whose signature segment
decodes to the recomputed digest and whose payload parses is accepted, with
the data record the source builds. -/
theorem verifySecureState_ok {hmacB : Str → Str} {now : Nat}
    {state p64 us non tsS eS sig : Str} {ts exp : Nat} {pd : PayloadView}
    (hsplit : splitOnDot state = [p64, us, non, tsS, eS, sig])
    (hts : parseNatM tsS = some ts) (hexp : parseNatM eS = some exp)
    (hle : ¬ exp < now)
    (hsig : b64UrlDecode sig =
      b64UrlDecode (signPayload hmacB (rebuiltData p64 us non ts exp)))
    (hpd : jsonParsePayload (b64UrlDecode p64) = some pd) :
    verifySecureState hmacB now state =
      .valid ⟨pd.userId, pd.callbackUrl, jsOrStr pd.state us, non, ts, exp⟩ := by
  unfold verifySecureState
  rw [not_blank_of_six hsplit]
  simp only [Bool.false_eq_true, if_false, hsplit, hts, hexp, if_neg hle]
  unfold rebuiltData at hsig
  rw [if_neg (by rw [hsig]; omega), if_neg (by rw [hsig]; exact fun h => h rfl), hpd]

/-- Round trip at the general level: a token issued by `createSecureState`
verifies within its TTL, recovering the parsed payload fields, the userState
and the issuance data, provided the userState contains no delimiter. -/
theorem verify_create_roundtrip {hmacB : Str → Str} {nonceBytes : List Nat}
    {timestamp now : Nat} {payload userState : Str} {pd : PayloadView}
    (hp : payload.all isJsSpace = false)
    (hpb : ∀ b ∈ payload, b < 256)
    (hus : ∀ c ∈ userState, c ≠ dotChar)
    (hnow : now ≤ timestamp + stateTtlMs)
    (hpd : jsonParsePayload payload = some pd) :
    createSecureState hmacB nonceBytes timestamp payload userState =
      some ⟨signingData payload userState nonceBytes timestamp ++
          dotChar :: signPayload hmacB (signingData payload userState nonceBytes timestamp),
        b64UrlEncode nonceBytes⟩ ∧
    b64UrlDecode (b64UrlEncode payload) = payload ∧
    verifySecureState hmacB now
        (signingData payload userState nonceBytes timestamp ++
          dotChar :: signPayload hmacB (signingData payload userState nonceBytes timestamp)) =
      .valid ⟨pd.userId, pd.callbackUrl, jsOrStr pd.state userState,
        b64UrlEncode nonceBytes, timestamp, timestamp + stateTtlMs⟩ := by
  refine ⟨createSecureState_eq hp, b64UrlDecode_b64UrlEncode hpb, ?_⟩
  have hsplit := @splitOnDot_token payload userState nonceBytes timestamp
    (signPayload hmacB (signingData payload userState nonceBytes timestamp)) hus
    (by unfold signPayload; exact b64UrlEncode_no_dot)
  have hdata : rebuiltData (b64UrlEncode payload) userState (b64UrlEncode nonceBytes)
      timestamp (timestamp + stateTtlMs) =
      signingData payload userState nonceBytes timestamp := rfl
  refine verifySecureState_ok hsplit (parseNatM_natToStr timestamp)
    (parseNatM_natToStr (timestamp + stateTtlMs)) (by omega) (by rw [hdata]) ?_
  rw [b64UrlDecode_b64UrlEncode hpb]
  exact hpd

/-- C1: the spec says a supplied expectedNonce must match the token's nonce
or decoding fails with reason "nonce mismatch".  The code has no such check:
`verifySecureState` declares one parameter, the second argument passed at the
call sites is ignored, and a token presented with a wrong expected nonce is
accepted.  First conjunct: the result never depends on the expected nonce.
Remaining conjuncts evaluate the code at the failing input: the token issued
for `samplePayload` with nonce `b64UrlEncode sampleNonce`, decoded with the
different nonce string `WRONG`, yields `valid` — not a nonce-mismatch
rejection. -/
theorem C1_expected_nonce_ignored :
    (∀ (hmacB : Str → Str) (now : Nat) (state n1 n2 : Str),
      verifySecureStateWithNonce hmacB now state n1 =
        verifySecureStateWithNonce hmacB now state n2) ∧
    createSecureState constDigest sampleNonce 5 samplePayload (strOf "dash") =
      some ⟨sampleToken 5, b64UrlEncode sampleNonce⟩ ∧
    strOf "WRONG" ≠ b64UrlEncode sampleNonce ∧
    verifySecureStateWithNonce constDigest 5 (sampleToken 5) (strOf "WRONG") =
      .valid ⟨some (strOf "u1"), some (strOf "https://x/cb"), strOf "dash",
        b64UrlEncode sampleNonce, 5, 5 + stateTtlMs⟩ := by
  refine ⟨fun _ _ _ _ _ => rfl, by decide, by decide, by decide⟩

/-- C2 counterexample: the claim says a token that is both expired and
signature-tampered is rejected with "invalid signature" because expiry is
checked after the signature.  In the code the expiry check runs first: the
token below carries the tampered signature segment `x`, which (second
conjunct) is indeed rejected as an invalid signature while the token is
fresh, yet once expired (TTL 600000ms, decoded at 700000) the very same
token is rejected as expired instead. -/
theorem C2_counterexample :
    verifySecureState constDigest 0
        (signingData samplePayload (strOf "dash") sampleNonce 0 ++ dotChar :: strOf "x") =
      .invalid .invalidSignature ∧
    verifySecureState constDigest 700000
        (signingData samplePayload (strOf "dash") sampleNonce 0 ++ dotChar :: strOf "x") =
      .invalid .expired ∧
    .invalid .expired ≠ VerifyStateResult.invalid .invalidSignature := by
  refine ⟨by decide, by decide, by decide⟩

/-- C2 (amended): every six-segment token with numeric timestamp and expiry
fields whose expiry has passed is rejected with reason "expired", whatever
its signature segment holds — the expiry check runs BEFORE signature
verification, so an expired token with an invalid signature reports
"expired", not "invalid signature". -/
theorem C2_expired_rejected_before_signature {hmacB : Str → Str} {now : Nat}
    {state p64 us non tsS eS sig : Str} {ts exp : Nat}
    (hsplit : splitOnDot state = [p64, us, non, tsS, eS, sig])
    (hts : parseNatM tsS = some ts) (hexp : parseNatM eS = some exp)
    (hlt : exp < now) :
    verifySecureState hmacB now state = .invalid .expired :=
  verifySecureState_expired hsplit hts hexp hlt

/-- C2 witness: the expired check fires on a concrete expired token (with
its genuine signature). -/
theorem C2_expired_rejected_before_signature_witness :
    verifySecureState constDigest 700000 (sampleToken 0) = .invalid .expired :=
  C2_expired_rejected_before_signature
    (@splitOnDot_token samplePayload (strOf "dash") sampleNonce 0
      (signPayload constDigest (signingData samplePayload (strOf "dash") sampleNonce 0))
      (by decide) (by unfold signPayload; exact b64UrlEncode_no_dot))
    (parseNatM_natToStr 0) (parseNatM_natToStr (0 + stateTtlMs)) (by decide)

/-- C3 counterexample: the claim asserts the round trip for every subState,
including one containing the delimiter.  Encoding with subState `a.b`
succeeds, but the issued token then splits into seven segments and decoding
rejects it as malformed instead of returning the payload. -/
theorem C3_counterexample :
    createSecureState constDigest sampleNonce 0 (strOf "0") (strOf "a.b") =
      some ⟨signingData (strOf "0") (strOf "a.b") sampleNonce 0 ++
          dotChar :: signPayload constDigest (signingData (strOf "0") (strOf "a.b") sampleNonce 0),
        b64UrlEncode sampleNonce⟩ ∧
    verifySecureState constDigest 0
        (signingData (strOf "0") (strOf "a.b") sampleNonce 0 ++
          dotChar :: signPayload constDigest (signingData (strOf "0") (strOf "a.b") sampleNonce 0)) =
      .invalid .malformed := by
  refine ⟨by decide, by decide⟩

/-- C3 (amended): for every valid payload P (non-blank, byte-valued, parsing
as JSON) and every subState S free of the delimiter character, decoding the
token returned by encode(P, S) within its TTL succeeds and recovers P (the
base64url round trip returns the exact payload string, whose parsed fields
populate the result) together with S and the issuance data.  A subState
containing the delimiter is not recoverable (see the counterexample): the
code does not escape the subState field. -/
theorem C3_roundtrip_delimiter_free {hmacB : Str → Str} {nonceBytes : List Nat}
    {timestamp now : Nat} {payload userState : Str} {pd : PayloadView}
    (hp : payload.all isJsSpace = false)
    (hpb : ∀ b ∈ payload, b < 256)
    (hus : ∀ c ∈ userState, c ≠ dotChar)
    (hnow : now ≤ timestamp + stateTtlMs)
    (hpd : jsonParsePayload payload = some pd) :
    createSecureState hmacB nonceBytes timestamp payload userState =
      some ⟨signingData payload userState nonceBytes timestamp ++
          dotChar :: signPayload hmacB (signingData payload userState nonceBytes timestamp),
        b64UrlEncode nonceBytes⟩ ∧
    b64UrlDecode (b64UrlEncode payload) = payload ∧
    verifySecureState hmacB now
        (signingData payload userState nonceBytes timestamp ++
          dotChar :: signPayload hmacB (signingData payload userState nonceBytes timestamp)) =
      .valid ⟨pd.userId, pd.callbackUrl, jsOrStr pd.state userState,
        b64UrlEncode nonceBytes, timestamp, timestamp + stateTtlMs⟩ :=
  verify_create_roundtrip hp hpb hus hnow hpd

/-- C3 witness: the round trip evaluated at the sample payload. -/
theorem C3_roundtrip_delimiter_free_witness :
    createSecureState constDigest sampleNonce 5 samplePayload (strOf "dash") =
      some ⟨signingData samplePayload (strOf "dash") sampleNonce 5 ++
          dotChar :: signPayload constDigest (signingData samplePayload (strOf "dash") sampleNonce 5),
        b64UrlEncode sampleNonce⟩ ∧
    b64UrlDecode (b64UrlEncode samplePayload) = samplePayload ∧
    verifySecureState constDigest 5
        (signingData samplePayload (strOf "dash") sampleNonce 5 ++
          dotChar :: signPayload constDigest (signingData samplePayload (strOf "dash") sampleNonce 5)) =
      .valid ⟨some (strOf "u1"), some (strOf "https://x/cb"),
        jsOrStr (some (strOf "dash")) (strOf "dash"),
        b64UrlEncode sampleNonce, 5, 5 + stateTtlMs⟩ :=
  @C3_roundtrip_delimiter_free constDigest sampleNonce 5 5 samplePayload (strOf "dash")
    ⟨some (strOf "u1"), some (strOf "https://x/cb"), some (strOf "dash")⟩
    (by decide) (by decide) (by decide) (by decide) (by decide)

/-- C4 counterexample: the claim says flipping any single bit of the
signature segment yields "invalid signature".  The genuine signature here is
43 `A` characters; flipping one bit of the final character (`A`, 65, becomes
`C`, 67 — they differ exactly in bit 1) only alters the two trailing padding
bits that base64url decoding drops, so the decoded 32 bytes are unchanged
and the flipped token still verifies as valid. -/
theorem C4_counterexample :
    Nat.xor 65 67 = 2 ∧
    signPayload constDigest (signingData samplePayload (strOf "dash") sampleNonce 0) =
      List.replicate 42 65 ++ [65] ∧
    verifySecureState constDigest 0
        (signingData samplePayload (strOf "dash") sampleNonce 0 ++
          dotChar :: (List.replicate 42 65 ++ [67])) =
      .valid ⟨some (strOf "u1"), some (strOf "https://x/cb"), strOf "dash",
        b64UrlEncode sampleNonce, 0, 0 + stateTtlMs⟩ := by
  refine ⟨by decide, by decide, by decide⟩

/-- C4 (amended): replacing the signature segment of a fresh token with any
base64url-alphabet string that decodes to a byte sequence different from the
genuine digest — in particular any single-bit flip that changes the decoded
bytes — makes decoding fail with reason "invalid signature".  A flip
confined to the padding bits of the final base64url character leaves the
decoded bytes unchanged and the token is still accepted (see the
counterexample). -/
theorem C4_tampered_signature_rejected {hmacB : Str → Str} {nonceBytes : List Nat}
    {timestamp now : Nat} {payload userState sig2 : Str}
    (hus : ∀ c ∈ userState, c ≠ dotChar)
    (halpha : ∀ c ∈ sig2, (b64Val c).isSome)
    (hnow : now ≤ timestamp + stateTtlMs)
    (hne : b64UrlDecode sig2 ≠
      b64UrlDecode (signPayload hmacB (signingData payload userState nonceBytes timestamp))) :
    verifySecureState hmacB now
        (signingData payload userState nonceBytes timestamp ++ dotChar :: sig2) =
      .invalid .invalidSignature := by
  have hsig2 : ∀ c ∈ sig2, c ≠ dotChar := by
    intro c hc hcd
    have := halpha c hc
    rw [hcd] at this
    rw [b64Val_dot_eq_none] at this
    cases this
  have hsplit := @splitOnDot_token payload userState nonceBytes timestamp sig2 hus hsig2
  have hdata : rebuiltData (b64UrlEncode payload) userState (b64UrlEncode nonceBytes)
      timestamp (timestamp + stateTtlMs) =
      signingData payload userState nonceBytes timestamp := rfl
  exact verifySecureState_badsig hsplit (parseNatM_natToStr timestamp)
    (parseNatM_natToStr (timestamp + stateTtlMs)) (by omega) (by rw [hdata]; exact hne)

/-- C4 witness: a tampered all-`B` signature segment on the sample token is
rejected as an invalid signature. -/
theorem C4_tampered_signature_rejected_witness :
    verifySecureState constDigest 0
        (signingData samplePayload (strOf "dash") sampleNonce 0 ++
          dotChar :: List.replicate 43 66) =
      .invalid .invalidSignature :=
  C4_tampered_signature_rejected (by decide) (by decide) (by decide) (by decide)

theorem verifyWebhookSignature_true_iff {hmacHex : Str → Str} {payload sig : Str} :
    verifyWebhookSignature hmacHex payload (some sig) = true ↔
      sig = strOf "sha256=" ++ hmacHex payload := by
  have hred : verifyWebhookSignature hmacHex payload (some sig) =
      (if sig.length ≠ (strOf "sha256=" ++ hmacHex payload).length then false
       else decide (sig = strOf "sha256=" ++ hmacHex payload)) := rfl
  rw [hred]
  by_cases h : sig.length ≠ (strOf "sha256=" ++ hmacHex payload).length
  · rw [if_pos h]
    simp only [Bool.false_eq_true, false_iff]
    intro he
    exact h (by rw [he])
  · rw [if_neg h]
    simp

theorem verifyWebhookSignature_false_of_ne {hmacHex : Str → Str} {payload : Str}
    {signature : Option Str}
    (h : signature ≠ some (strOf "sha256=" ++ hmacHex payload)) :
    verifyWebhookSignature hmacHex payload signature = false := by
  cases signature with
  | none => rfl
  | some s =>
      cases hb : verifyWebhookSignature hmacHex payload (some s) with
      | false => rfl
      | true => exact absurd (congrArg some (verifyWebhookSignature_true_iff.mp hb)) h

/-- C5: the spec says the webhook digest is recomputed over the exact raw
body bytes received.  The code instead digests `JSON.stringify(req.body)`, a
re-serialization of the parsed body, even though `index.ts` saved the raw
bytes on `req.rawBody` for this purpose.  At the failing input — a correctly
signed raw body containing one whitespace character — the re-serialization
differs from the raw text (first conjunct), so the route-level check rejects
the correct signature (second conjunct), although a verifier fed the raw
bytes would accept it (third conjunct). -/
theorem C5_digest_over_reserialized_body :
    jsonReserialize rawBodyWithSpace ≠ rawBodyWithSpace ∧
    webhookSignatureCheck toyHexDigest jsonReserialize rawBodyWithSpace
        (some (strOf "sha256=" ++ toyHexDigest rawBodyWithSpace)) = false ∧
    verifyWebhookSignature toyHexDigest rawBodyWithSpace
        (some (strOf "sha256=" ++ toyHexDigest rawBodyWithSpace)) = true := by
  refine ⟨by decide, by decide, by decide⟩

/-- C6: the 200 acknowledgment is the first action of the webhook POST
handler — it precedes signature verification and any processing — and when
the signature header is tampered (differs from the correct header for the
delivered body) the handler performs no processing or forwarding at all:
its full trace is the acknowledgment followed by the failed verification. -/
theorem C6_ack_first_tampered_forwards_nothing (hmacHex : Str → Str)
    (bodySerialized : Str) (signature : Option Str) (entries : List WhEntry) :
    (webhookPostTrace hmacHex bodySerialized signature entries).head? =
      some .respond200 ∧
    (signature ≠ some (strOf "sha256=" ++ hmacHex bodySerialized) →
      webhookPostTrace hmacHex bodySerialized signature entries =
        [.respond200, .verifySig]) := by
  refine ⟨rfl, fun h => ?_⟩
  unfold webhookPostTrace
  rw [verifyWebhookSignature_false_of_ne h]
  rfl

/-- C6 witness: a batch with one messaging and one change event under a
tampered header is acknowledged and dropped. -/
theorem C6_ack_first_tampered_forwards_nothing_witness :
    (webhookPostTrace toyHexDigest (strOf "\x7b\x7d") (some (strOf "sha256=bad"))
        [⟨strOf "1", [strOf "m1"], [strOf "c1"]⟩]).head? = some .respond200 ∧
    webhookPostTrace toyHexDigest (strOf "\x7b\x7d") (some (strOf "sha256=bad"))
        [⟨strOf "1", [strOf "m1"], [strOf "c1"]⟩] = [.respond200, .verifySig] :=
  ⟨(C6_ack_first_tampered_forwards_nothing toyHexDigest (strOf "\x7b\x7d")
      (some (strOf "sha256=bad")) [⟨strOf "1", [strOf "m1"], [strOf "c1"]⟩]).1,
   (C6_ack_first_tampered_forwards_nothing toyHexDigest (strOf "\x7b\x7d")
      (some (strOf "sha256=bad")) [⟨strOf "1", [strOf "m1"], [strOf "c1"]⟩]).2 (by decide)⟩

theorem pollLoop_finished {statuses : Nat → Str} {m i : Nat} (him : i < m)
    (h : statuses i = strOf "FINISHED") :
    pollLoop statuses m i = .ready (i + 1) := by
  unfold pollLoop
  rw [dif_pos him, if_pos h]

theorem pollLoop_failed {statuses : Nat → Str} {m i : Nat} (him : i < m)
    (hne : statuses i ≠ strOf "FINISHED")
    (hor : statuses i = strOf "ERROR" ∨ statuses i = strOf "EXPIRED") :
    pollLoop statuses m i = .containerFailed (statuses i) (i + 1) := by
  unfold pollLoop
  rw [dif_pos him, if_neg hne, if_pos hor]

theorem pollLoop_cont {statuses : Nat → Str} {m i : Nat} (him : i < m)
    (h1 : statuses i ≠ strOf "FINISHED")
    (h2 : ¬(statuses i = strOf "ERROR" ∨ statuses i = strOf "EXPIRED")) :
    pollLoop statuses m i = pollLoop statuses m (i + 1) := by
  conv_lhs => rw [pollLoop]
  rw [dif_pos him, if_neg h1, if_neg h2]

theorem pollLoop_timeout {statuses : Nat → Str} {m : Nat} :
    pollLoop statuses m m = .timeout m := by
  unfold pollLoop
  rw [dif_neg (by omega)]

theorem pollLoop_skip {statuses : Nat → Str} {m : Nat} :
    ∀ d i, i + d ≤ m →
      (∀ j, i ≤ j → j < i + d →
        statuses j ≠ strOf "FINISHED" ∧ statuses j ≠ strOf "ERROR" ∧
          statuses j ≠ strOf "EXPIRED") →
      pollLoop statuses m i = pollLoop statuses m (i + d) := by
  intro d
  induction d with
  | zero =>
      intro i _ _
      rfl
  | succ d ih =>
      intro i hle h
      have h0 := h i le_rfl (by omega)
      rw [pollLoop_cont (by omega) h0.1
        (by rintro (he | hx); exacts [h0.2.1 he, h0.2.2 hx])]
      rw [ih (i + 1) (by omega) (fun j hj1 hj2 => h j (by omega) (by omega))]
      congr 1
      omega

/-- C7: the polling loop (a) returns after exactly 3 status calls on the
sequence IN_PROGRESS, IN_PROGRESS, FINISHED; (b) raises the container-failed
error after k+1 calls when the k-th status (after in-progress ones) is
ERROR; and (c) raises the timeout error after exactly maxAttempts status
calls when every status is IN_PROGRESS. -/
theorem C7_poll_ready_error_timeout :
    (∀ (statuses : Nat → Str) (m : Nat), 3 ≤ m →
      statuses 0 = strOf "IN_PROGRESS" → statuses 1 = strOf "IN_PROGRESS" →
      statuses 2 = strOf "FINISHED" →
      waitForContainerReady statuses m = .ready 3) ∧
    (∀ (statuses : Nat → Str) (m k : Nat), k < m →
      (∀ j < k, statuses j = strOf "IN_PROGRESS") → statuses k = strOf "ERROR" →
      waitForContainerReady statuses m = .containerFailed (strOf "ERROR") (k + 1)) ∧
    (∀ (statuses : Nat → Str) (m : Nat),
      (∀ j < m, statuses j = strOf "IN_PROGRESS") →
      waitForContainerReady statuses m = .timeout m) := by
  refine ⟨?_, ?_, ?_⟩
  · intro statuses m hm h0 h1 h2
    unfold waitForContainerReady
    rw [pollLoop_skip 2 0 (by omega) ?_]
    · exact pollLoop_finished (by omega) h2
    · intro j hj1 hj2
      interval_cases j
      · rw [h0]
        refine ⟨by decide, by decide, by decide⟩
      · rw [h1]
        refine ⟨by decide, by decide, by decide⟩
  · intro statuses m k hk hpre herr
    unfold waitForContainerReady
    rw [pollLoop_skip k 0 (by omega) ?_]
    · rw [show (0 + k : Nat) = k by omega,
        pollLoop_failed hk (by rw [herr]; decide) (Or.inl herr), herr]
    · intro j hj1 hj2
      rw [hpre j (by omega)]
      refine ⟨by decide, by decide, by decide⟩
  · intro statuses m hall
    unfold waitForContainerReady
    rw [pollLoop_skip m 0 (by omega) ?_]
    · rw [show (0 + m : Nat) = m by omega]
      exact pollLoop_timeout
    · intro j hj1 hj2
      rw [hall j (by omega)]
      refine ⟨by decide, by decide, by decide⟩

/-- C7 witness: the three behaviours evaluated on explicit status
sequences of the platform. -/
theorem C7_poll_ready_error_timeout_witness :
    waitForContainerReady
        (fun i => if i < 2 then strOf "IN_PROGRESS" else strOf "FINISHED") 10 =
      .ready 3 ∧
    waitForContainerReady
        (fun i => if i = 1 then strOf "ERROR" else strOf "IN_PROGRESS") 10 =
      .containerFailed (strOf "ERROR") 2 ∧
    waitForContainerReady (fun _ => strOf "IN_PROGRESS") 10 = .timeout 10 :=
  ⟨C7_poll_ready_error_timeout.1 _ 10 (by omega) (by decide) (by decide) (by decide),
   C7_poll_ready_error_timeout.2.1 _ 10 1 (by omega) (by decide) (by decide),
   C7_poll_ready_error_timeout.2.2 _ 10 (by decide)⟩

/-- C10: the loop treats every status other than FINISHED, ERROR and
EXPIRED — PUBLISHED or any unrecognized value included — as still in
progress: if no status call in the whole budget returns one of the three
recognized terminal strings, the loop never stops early and fails with the
timeout error after maxAttempts calls. -/
theorem C10_unrecognized_status_times_out (statuses : Nat → Str) (m : Nat)
    (h : ∀ j < m, statuses j ≠ strOf "FINISHED" ∧ statuses j ≠ strOf "ERROR" ∧
      statuses j ≠ strOf "EXPIRED") :
    waitForContainerReady statuses m = .timeout m := by
  unfold waitForContainerReady
  rw [pollLoop_skip m 0 (by omega) (fun j hj1 hj2 => h j (by omega))]
  rw [show (0 + m : Nat) = m by omega]
  exact pollLoop_timeout

/-- C10 witness: a container that forever reports PUBLISHED is polled the
full 10 attempts and then times out. -/
theorem C10_unrecognized_status_times_out_witness :
    waitForContainerReady (fun _ => strOf "PUBLISHED") 10 = .timeout 10 :=
  C10_unrecognized_status_times_out (fun _ => strOf "PUBLISHED") 10 (by decide)

/-- C8: the carousel controller rejects an item list with fewer than 2 or
more than 10 entries with the 400 items-invalid response before the service
runs: the network transport records zero calls. -/
theorem C8_item_bound_before_network (tr : Nat → Str) (a t : Str)
    (its : List CarouselItem) (c : Option Str)
    (h : its.length < 2 ∨ its.length > 10) :
    publishCarouselCtrl tr (some a) (some t) (some its) c =
      (.badRequestItems, []) := by
  have hred : publishCarouselCtrl tr (some a) (some t) (some its) c =
      (if its.length < 2 ∨ its.length > 10 then (.badRequestItems, [])
       else
        match svcPublishCarousel tr its with
        | (.ok mid, calls) => (.ok mid, calls)
        | (.error e, calls) => (.serverError e, calls)) := rfl
  rw [hred, if_pos h]

/-- C8 witness: a 1-item and an 11-item request both fail fast with zero
transport calls. -/
theorem C8_item_bound_before_network_witness :
    publishCarouselCtrl (fun _ => strOf "id") (some (strOf "acc")) (some (strOf "tok"))
        (some [⟨some (strOf "u"), none⟩]) none = (.badRequestItems, []) ∧
    publishCarouselCtrl (fun _ => strOf "id") (some (strOf "acc")) (some (strOf "tok"))
        (some (List.replicate 11 ⟨some (strOf "u"), none⟩)) none =
      (.badRequestItems, []) :=
  ⟨C8_item_bound_before_network (fun _ => strOf "id") (strOf "acc") (strOf "tok")
      [⟨some (strOf "u"), none⟩] none (by decide),
   C8_item_bound_before_network (fun _ => strOf "id") (strOf "acc") (strOf "tok")
      (List.replicate 11 ⟨some (strOf "u"), none⟩) none (by decide)⟩

/-- C9: the spec scenario expects the callback to redirect to
`https://x/cb` with `success=true` and `instagramUserId=123`.  The code
never gets there: `verifySecureState` already parsed the payload and put its
`userId` FIELD (`u1`) into `data.userId`, but `handleCallback` then calls
`JSON.parse(verification.data.userId)` — parsing the bare string `u1` as
JSON — which throws, and the outer catch redirects to the configured
default callback with `success=false` instead.  Conjuncts: the OAuth start
issues the expected token; verifying it (with the issued nonce) succeeds
with `data.userId = "u1"`; `u1` is not parseable JSON; and the full
callback run ends in the default-URL error redirect. -/
theorem C9_callback_reparses_userId_and_fails :
    startAuthState constDigest sampleNonce 0 (strOf "u1") (strOf "https://x/cb")
        (strOf "default") = some ⟨c9Token, b64UrlEncode sampleNonce⟩ ∧
    verifySecureStateWithNonce constDigest 0 c9Token (b64UrlEncode sampleNonce) =
      .valid ⟨some (strOf "u1"), some (strOf "https://x/cb"), strOf "default",
        b64UrlEncode sampleNonce, 0, 0 + stateTtlMs⟩ ∧
    jsonParsePayload (strOf "u1") = none ∧
    handleCallback constDigest 0 (strOf "https://default") (some (strOf "c0"))
        (some c9Token) none none (some (b64UrlEncode sampleNonce)) (.ok c9AuthData) =
      .redirect (strOf "https://default")
        [(strOf "success", strOf "false"), (strOf "error", strOf "SyntaxError")] := by
  refine ⟨by decide, by decide, by decide, by decide⟩

end IgService

